import Mathlib

/-!
Verification development for the photo-analysis pipeline and identity
resolver of this repository (ai-worker and person-api services).

The relational store is embedded shallowly: each table is a list of rows,
uuid keys are natural numbers drawn from a fresh counter, numeric columns
are rationals.  pgvector's `<->` operator is the L2 (Euclidean) distance;
here distances are carried as their squares (exact in ℚ) and every
comparison the code performs on a distance is encoded as the equivalent
comparison on squares.  Bridge lemmas relate the encodings to `Real.sqrt`.
-/

namespace PhotoPipeline

abbrev Vec := List ℚ

/-- Row of the persons table (person-api creates these). -/
structure PersonRow where
  id : Nat
  owner_id : Nat
  name : String
  relationship : Option String
  notes : Option String
deriving DecidableEq

/-- Row of the face_embeddings table (db.py, save_face_embedding). -/
structure FaceEmbeddingRow where
  id : Nat
  media_id : Nat
  person_id : Option Nat
  embedding : Vec
  bbox_x : Int
  bbox_y : Int
  bbox_width : Int
  bbox_height : Int
deriving DecidableEq

/-- Row of the photo_persons table (unique on (media_id, person_id)). -/
structure PhotoPersonRow where
  media_id : Nat
  person_id : Nat
  face_embedding_id : Option Nat
  confirmed : Bool
deriving DecidableEq

/-- Status column of analysis_results. -/
inductive AnalysisStatus
  | PENDING
  | PROCESSING
  | DONE
  | FAILED
deriving DecidableEq

/-- The five EXIF-derived columns of analysis_results, grouped. -/
structure ExifData where
  taken_at : Option Nat
  latitude : Option ℚ
  longitude : Option ℚ
  camera_make : Option String
  camera_model : Option String
deriving DecidableEq

def ExifData.empty : ExifData := ⟨none, none, none, none, none⟩

/-- Row of the analysis_results table (unique on media_id). -/
structure AnalysisRow where
  media_id : Nat
  owner_id : Nat
  status : AnalysisStatus
  face_count : Option Nat
  exif : ExifData
  error_message : Option String
  updated_at : Nat
deriving DecidableEq

/-- Row of the ignored_faces table (unique on (owner_id, face_embedding_id)). -/
structure IgnoredFaceRow where
  owner_id : Nat
  face_embedding_id : Nat
deriving DecidableEq

/-- The whole relational state.  nextId models uuid generation. -/
structure DB where
  persons : List PersonRow
  face_embeddings : List FaceEmbeddingRow
  photo_persons : List PhotoPersonRow
  analysis_results : List AnalysisRow
  ignored_faces : List IgnoredFaceRow
  nextId : Nat
deriving DecidableEq

/-! ## Distance encoding -/

/-- Squared L2 distance between two vectors, summed over the common prefix
(pgvector vectors have a fixed dimension; the SQL distance is the square
root of this sum). -/
def l2sq : Vec → Vec → ℚ
  | a :: as, b :: bs => (a - b) ^ 2 + l2sq as bs
  | _, _ => 0

theorem l2sq_nonneg (a b : Vec) : 0 ≤ l2sq a b := by
  induction a generalizing b with
  | nil => cases b <;> simp [l2sq]
  | cons x xs ih =>
    cases b with
    | nil => simp [l2sq]
    | cons y ys =>
      have h1 : (0 : ℚ) ≤ (x - y) ^ 2 := sq_nonneg _
      have h2 := ih ys
      simpa [l2sq] using add_nonneg h1 h2

/-- Encodes the comparison best_distance > threshold of db.py line 138,
where best_distance is the square root of dsq. -/
def distGT (dsq t : ℚ) : Bool := decide (t < 0) || decide (t ^ 2 < dsq)

/-- Encodes the comparison best_distance > second_distance * ratio of
db.py line 143, on squared distances, valid for ratio > 0. -/
def marginGT (bsq ssq r : ℚ) : Bool := decide (ssq * r ^ 2 < bsq)

/-- Bridge: the threshold encoding agrees with the real square root. -/
theorem distGT_iff_sqrt (dsq t : ℚ) (h : 0 ≤ dsq) :
    distGT dsq t = true ↔ (t : ℝ) < Real.sqrt (dsq : ℚ) := by
  constructor
  · intro hd
    simp only [distGT, Bool.or_eq_true, decide_eq_true_eq] at hd
    rcases hd with hd | hd
    · calc (t : ℝ) < 0 := by exact_mod_cast hd
        _ ≤ Real.sqrt (dsq : ℚ) := Real.sqrt_nonneg _
    · by_cases ht : (0 : ℚ) ≤ t
      · have h1 : ((t : ℝ)) ^ 2 < ((dsq : ℚ) : ℝ) := by exact_mod_cast hd
        have ht' : (0 : ℝ) ≤ (t : ℝ) := by exact_mod_cast ht
        have := Real.lt_sqrt ht' (y := ((dsq : ℚ) : ℝ))
        exact this.mpr h1
      · push_neg at ht
        calc (t : ℝ) < 0 := by exact_mod_cast ht
          _ ≤ Real.sqrt (dsq : ℚ) := Real.sqrt_nonneg _
  · intro hs
    simp only [distGT, Bool.or_eq_true, decide_eq_true_eq]
    by_cases ht : t < 0
    · exact Or.inl ht
    · push_neg at ht
      right
      have ht' : (0 : ℝ) ≤ (t : ℝ) := by exact_mod_cast ht
      have h1 : ((t : ℝ)) ^ 2 < ((dsq : ℚ) : ℝ) := (Real.lt_sqrt ht').mp hs
      exact_mod_cast h1

/-- Bridge: the margin encoding agrees with the real square roots, for a
positive ratio. -/
theorem marginGT_iff_sqrt (bsq ssq r : ℚ) (hb : 0 ≤ bsq) (hs : 0 ≤ ssq)
    (hr : 0 < r) :
    marginGT bsq ssq r = true ↔
      Real.sqrt (ssq : ℚ) * (r : ℝ) < Real.sqrt (bsq : ℚ) := by
  have hs' : (0 : ℝ) ≤ ((ssq : ℚ) : ℝ) := by exact_mod_cast hs
  have hr' : (0 : ℝ) ≤ (r : ℝ) := by exact_mod_cast hr.le
  have key : Real.sqrt (ssq : ℚ) * (r : ℝ) = Real.sqrt (((ssq * r ^ 2 : ℚ)) : ℝ) := by
    have h1 : Real.sqrt (((r : ℝ)) ^ 2) = (r : ℝ) := Real.sqrt_sq hr'
    rw [show (((ssq * r ^ 2 : ℚ)) : ℝ) = ((ssq : ℚ) : ℝ) * ((r : ℝ)) ^ 2 by push_cast; ring]
    rw [Real.sqrt_mul hs', h1]
  rw [marginGT, decide_eq_true_eq, key]
  have hsr : (0 : ℝ) ≤ (((ssq * r ^ 2 : ℚ)) : ℝ) := by
    have : (0 : ℚ) ≤ ssq * r ^ 2 := mul_nonneg hs (sq_nonneg _)
    exact_mod_cast this
  rw [Real.sqrt_lt_sqrt_iff hsr]
  constructor
  · intro h; exact_mod_cast h
  · intro h; exact_mod_cast h

/-! ## Identity resolver (db.py, Database.find_similar_face) -/

/-- Configuration entering find_similar_face: the resolved environment
values for threshold / min samples / ratio / allow-single, and the
Python parameter default used when the environment ratio is invalid. -/
structure MatchConfig where
  threshold : ℚ
  minSamples : Int
  ratio : ℚ
  defaultRatio : ℚ
  allowSingle : Bool
deriving DecidableEq

/-- Clamp of db.py lines 97-98: min_samples floored at 1. -/
def minSamplesOf (cfg : MatchConfig) : Int :=
  if cfg.minSamples < 1 then 1 else cfg.minSamples

/-- Clamp of db.py lines 99-100: a ratio outside (0, 1] is replaced by the
parameter default. -/
def ratioOf (cfg : MatchConfig) : ℚ :=
  if cfg.ratio ≤ 0 ∨ 1 < cfg.ratio then cfg.defaultRatio else cfg.ratio

/-- Confirmed photo_persons rows of a person with a non-null
face_embedding_id: the rows counted by the eligible_persons CTE. -/
def confirmedLinksWithFid (db : DB) (pid : Nat) : List PhotoPersonRow :=
  db.photo_persons.filter fun pp =>
    pp.person_id == pid && pp.confirmed && pp.face_embedding_id.isSome

/-- Join with the persons table on ownership (person ids are primary-key
unique, so the join is an existence check). -/
def personOwned (db : DB) (owner pid : Nat) : Bool :=
  db.persons.any fun p => p.id == pid && p.owner_id == owner

/-- HAVING COUNT(*) >= min_samples of the eligible_persons CTE. -/
def isEligiblePerson (db : DB) (minS : Int) (pid : Nat) : Bool :=
  decide (minS ≤ ((confirmedLinksWithFid db pid).length : Int))

/-- Squared distances from the query to each confirmed exemplar of a
person: confirmed photo_persons rows joined to face_embeddings on
face_embedding_id (the person_distances CTE). -/
def exemplarDistSqs (db : DB) (q : Vec) (pid : Nat) : List ℚ :=
  (db.photo_persons.filter fun pp => pp.person_id == pid && pp.confirmed).filterMap
    fun pp => pp.face_embedding_id.bind fun fid =>
      (db.face_embeddings.find? fun fe => fe.id == fid).map fun fe =>
        l2sq fe.embedding q

def listMinQ : List ℚ → Option ℚ
  | [] => none
  | x :: xs =>
    match listMinQ xs with
    | none => some x
    | some m => some (min x m)

theorem listMinQ_mem {l : List ℚ} {d : ℚ} (h : listMinQ l = some d) : d ∈ l := by
  induction l generalizing d with
  | nil => simp [listMinQ] at h
  | cons x xs ih =>
    simp only [listMinQ] at h
    cases hxs : listMinQ xs with
    | none => rw [hxs] at h; simp at h; simp [h]
    | some m =>
      rw [hxs] at h
      simp only [Option.some.injEq] at h
      rcases min_choice x m with hc | hc
      · rw [hc] at h; simp [← h]
      · rw [hc] at h; right; exact h ▸ ih hxs

/-- MIN(fe.embedding <-> query) per person, as a squared distance. -/
def minDistSq (db : DB) (q : Vec) (pid : Nat) : Option ℚ :=
  listMinQ (exemplarDistSqs db q pid)

/-- The rows of the person_distances CTE: one (person, squared minimum
distance) pair per eligible person of the owner having at least one
joinable exemplar.  GROUP BY dedups person ids. -/
def candidateDistances (db : DB) (owner : Nat) (minS : Int) (q : Vec) : List (Nat × ℚ) :=
  (((db.persons.filter fun p => p.owner_id == owner).map fun p => p.id).dedup).filterMap
    fun pid =>
      if isEligiblePerson db minS pid then (minDistSq db q pid).map fun d => (pid, d)
      else none

/-- Extracts a minimal element (first among ties) and the remaining list;
applying it twice models ORDER BY min_distance ASC LIMIT 2. -/
def pickMin : List (Nat × ℚ) → Option ((Nat × ℚ) × List (Nat × ℚ))
  | [] => none
  | x :: xs =>
    match pickMin xs with
    | none => some (x, [])
    | some (m, rest) =>
      if x.2 ≤ m.2 then some (x, xs) else some (m, x :: rest)

/-- Database.find_similar_face of db.py: the identity resolver.  The env
reads and clamps of lines 93-100 are the MatchConfig resolution; the SQL
of lines 103-127 is candidateDistances plus the two pickMin extractions;
lines 129-146 are the decision ladder. -/
def find_similar_face (cfg : MatchConfig) (db : DB) (q : Vec) (owner : Nat) :
    Option Nat :=
  let minS := minSamplesOf cfg
  let ratio := ratioOf cfg
  match pickMin (candidateDistances db owner minS q) with
  | none => none
  | some (best, rest) =>
    match pickMin rest with
    | none =>
      if !cfg.allowSingle then none
      else if distGT best.2 cfg.threshold then none
      else some best.1
    | some (second, _) =>
      if distGT best.2 cfg.threshold then none
      else if marginGT best.2 second.2 ratio then none
      else some best.1

/-! ## Helper lemmas about the resolver -/

theorem pickMin_mem {l : List (Nat × ℚ)} {m : Nat × ℚ} {rest : List (Nat × ℚ)}
    (h : pickMin l = some (m, rest)) : m ∈ l := by
  induction l generalizing m rest with
  | nil => simp [pickMin] at h
  | cons x xs ih =>
    simp only [pickMin] at h
    cases hxs : pickMin xs with
    | none =>
      rw [hxs] at h
      simp only [Option.some.injEq, Prod.mk.injEq] at h
      simp [h.1]
    | some p =>
      obtain ⟨m', rest'⟩ := p
      rw [hxs] at h
      dsimp only at h
      by_cases hle : x.2 ≤ m'.2
      · rw [if_pos hle] at h
        simp only [Option.some.injEq, Prod.mk.injEq] at h
        simp [h.1]
      · rw [if_neg hle] at h
        simp only [Option.some.injEq, Prod.mk.injEq] at h
        right
        exact h.1 ▸ ih hxs

theorem pickMin_rest_mem {l : List (Nat × ℚ)} {m : Nat × ℚ} {rest : List (Nat × ℚ)}
    (h : pickMin l = some (m, rest)) : ∀ x ∈ rest, x ∈ l := by
  induction l generalizing m rest with
  | nil => simp [pickMin] at h
  | cons x xs ih =>
    simp only [pickMin] at h
    cases hxs : pickMin xs with
    | none =>
      rw [hxs] at h
      simp only [Option.some.injEq, Prod.mk.injEq] at h
      intro y hy
      rw [← h.2] at hy
      simp at hy
    | some p =>
      obtain ⟨m', rest'⟩ := p
      rw [hxs] at h
      dsimp only at h
      by_cases hle : x.2 ≤ m'.2
      · rw [if_pos hle] at h
        simp only [Option.some.injEq, Prod.mk.injEq] at h
        intro y hy
        rw [← h.2] at hy
        exact List.mem_cons_of_mem x hy
      · rw [if_neg hle] at h
        simp only [Option.some.injEq, Prod.mk.injEq] at h
        intro y hy
        rw [← h.2] at hy
        rcases List.mem_cons.mp hy with hy | hy
        · simp [hy]
        · exact List.mem_cons_of_mem x (ih hxs y hy)

theorem mem_candidateDistances {db : DB} {owner : Nat} {minS : Int} {q : Vec}
    {x : Nat × ℚ}
    (h : x ∈ candidateDistances db owner minS q) :
    personOwned db owner x.1 = true ∧ isEligiblePerson db minS x.1 = true ∧
      minDistSq db q x.1 = some x.2 := by
  obtain ⟨pid, d⟩ := x
  simp only [candidateDistances, List.mem_filterMap] at h
  obtain ⟨pid', hmem, hres⟩ := h
  by_cases he : isEligiblePerson db minS pid'
  · rw [if_pos he] at hres
    rw [Option.map_eq_some'] at hres
    obtain ⟨d', hd', heq⟩ := hres
    have hpid : pid' = pid := congrArg Prod.fst heq
    have hdd : d' = d := congrArg Prod.snd heq
    subst hpid; subst hdd
    refine ⟨?_, he, hd'⟩
    have hmem' : pid' ∈ (db.persons.filter fun p => p.owner_id == owner).map
        (fun p => p.id) := List.mem_dedup.mp hmem
    obtain ⟨p, hp, hpid⟩ := List.mem_map.mp hmem'
    have hpf := List.mem_filter.mp hp
    rw [personOwned, List.any_eq_true]
    exact ⟨p, hpf.1, by simp [hpid, hpf.2]⟩
  · rw [if_neg he] at hres
    simp at hres

theorem minDistSq_mem_nonneg {db : DB} {q : Vec} {pid : Nat} {d : ℚ}
    (h : minDistSq db q pid = some d) : 0 ≤ d := by
  have hd := listMinQ_mem h
  simp only [exemplarDistSqs, List.mem_filterMap] at hd
  obtain ⟨pp, hpp, hres⟩ := hd
  cases hfid : pp.face_embedding_id with
  | none => rw [hfid] at hres; simp at hres
  | some fid =>
    rw [hfid] at hres
    simp only [Option.some_bind] at hres
    rw [Option.map_eq_some'] at hres
    obtain ⟨fe, hfe, hdd⟩ := hres
    rw [← hdd]
    exact l2sq_nonneg _ _

theorem candidate_nonneg {db : DB} {owner : Nat} {minS : Int} {q : Vec}
    {x : Nat × ℚ}
    (h : x ∈ candidateDistances db owner minS q) : 0 ≤ x.2 :=
  minDistSq_mem_nonneg (mem_candidateDistances h).2.2

theorem minSamples_le_minSamplesOf (cfg : MatchConfig) :
    cfg.minSamples ≤ minSamplesOf cfg := by
  unfold minSamplesOf
  split <;> omega

theorem distGT_false_sqrt_le {dsq t : ℚ} (h : distGT dsq t = false) :
    Real.sqrt (dsq : ℚ) ≤ (t : ℝ) := by
  simp only [distGT, Bool.or_eq_false_iff, decide_eq_false_iff_not, not_lt] at h
  obtain ⟨ht, hd⟩ := h
  have h1 : ((dsq : ℚ) : ℝ) ≤ ((t : ℝ)) ^ 2 := by exact_mod_cast hd
  have h2 := Real.sqrt_le_sqrt h1
  rwa [Real.sqrt_sq (by exact_mod_cast ht)] at h2

theorem sqrt_le_distGT_false {dsq t : ℚ} (hd : 0 ≤ dsq)
    (h : Real.sqrt (dsq : ℚ) ≤ (t : ℝ)) : distGT dsq t = false := by
  have ht : (0 : ℝ) ≤ (t : ℝ) := le_trans (Real.sqrt_nonneg _) h
  have h2 : ((dsq : ℚ) : ℝ) ≤ ((t : ℝ)) ^ 2 := by
    have h3 := pow_le_pow_left₀ (Real.sqrt_nonneg ((dsq : ℚ) : ℝ)) h 2
    rwa [Real.sq_sqrt (show (0:ℝ) ≤ ((dsq : ℚ) : ℝ) by exact_mod_cast hd)] at h3
  simp only [distGT, Bool.or_eq_false_iff, decide_eq_false_iff_not, not_lt]
  exact ⟨by exact_mod_cast ht, by exact_mod_cast h2⟩

/-- Referential integrity of photo_persons.face_embedding_id, guaranteed by
the foreign key of the relational schema. -/
def refIntegrity (db : DB) : Bool :=
  db.photo_persons.all fun pp =>
    match pp.face_embedding_id with
    | none => true
    | some fid => db.face_embeddings.any fun fe => fe.id == fid

/-- Confirmed photo_persons rows of a person whose face_embedding_id
resolves to an existing face_embeddings row (links backed by an exemplar). -/
def backedConfirmedLinks (db : DB) (pid : Nat) : List PhotoPersonRow :=
  db.photo_persons.filter fun pp =>
    pp.person_id == pid && pp.confirmed &&
      (pp.face_embedding_id.bind fun fid =>
        db.face_embeddings.find? fun fe => fe.id == fid).isSome

theorem backed_eq_withFid {db : DB} (h : refIntegrity db = true) (pid : Nat) :
    backedConfirmedLinks db pid = confirmedLinksWithFid db pid := by
  unfold backedConfirmedLinks confirmedLinksWithFid
  apply List.filter_congr
  intro pp hpp
  cases hfid : pp.face_embedding_id with
  | none => simp [hfid]
  | some fid =>
    simp only [refIntegrity, List.all_eq_true] at h
    have hp := h pp hpp
    rw [hfid] at hp
    dsimp only at hp
    simp only [hfid, Option.some_bind, Option.isSome_some]
    have hsome : (List.find? (fun fe => fe.id == fid) db.face_embeddings).isSome = true := by
      rw [List.find?_isSome]
      simpa only [List.any_eq_true] using hp
    rw [hsome]

/-- Inversion: a successful resolution comes from the minimal candidate and
passes the threshold check. -/
theorem find_similar_face_some {cfg : MatchConfig} {db : DB} {q : Vec}
    {owner pid : Nat}
    (h : find_similar_face cfg db q owner = some pid) :
    ∃ d rest, pickMin (candidateDistances db owner (minSamplesOf cfg) q) =
        some ((pid, d), rest) ∧ distGT d cfg.threshold = false := by
  simp only [find_similar_face] at h
  cases hp1 : pickMin (candidateDistances db owner (minSamplesOf cfg) q) with
  | none => rw [hp1] at h; simp at h
  | some p =>
    obtain ⟨best, rest⟩ := p
    rw [hp1] at h
    dsimp only at h
    cases hp2 : pickMin rest with
    | none =>
      rw [hp2] at h
      dsimp only at h
      cases hAS : cfg.allowSingle with
      | false => rw [hAS] at h; simp at h
      | true =>
        rw [hAS] at h
        cases hdg : distGT best.2 cfg.threshold with
        | true => rw [hdg] at h; simp at h
        | false =>
          rw [hdg] at h
          simp only [Bool.not_true, Bool.false_eq_true, if_false, reduceIte,
            Option.some.injEq] at h
          refine ⟨best.2, rest, ?_, hdg⟩
          rw [← h, Prod.mk.eta]
    | some p2 =>
      obtain ⟨second, rest2⟩ := p2
      rw [hp2] at h
      dsimp only at h
      cases hdg : distGT best.2 cfg.threshold with
      | true => rw [hdg] at h; simp at h
      | false =>
        rw [hdg] at h
        cases hmg : marginGT best.2 second.2 (ratioOf cfg) with
        | true => rw [hmg] at h; simp at h
        | false =>
          rw [hmg] at h
          simp only [Bool.false_eq_true, if_false, reduceIte, Option.some.injEq] at h
          refine ⟨best.2, rest, ?_, hdg⟩
          rw [← h, Prod.mk.eta]

/-! ## Claims C1, C2, C3: the resolver decision rules -/

/-- C1: whenever the identity resolver returns a person id, that person has
at least min_confirmed_samples confirmed photo_persons links each backed by
an existing FaceEmbedding row, and the minimum L2 distance from the query
to its confirmed exemplar embeddings is at most the configured distance
threshold; contrapositively, a person with fewer confirmed exemplars is
never returned, regardless of distance. -/
theorem C1_resolver_eligibility_and_threshold
    (cfg : MatchConfig) (db : DB) (q : Vec) (owner pid : Nat)
    (hri : refIntegrity db = true)
    (h : find_similar_face cfg db q owner = some pid) :
    cfg.minSamples ≤ ((backedConfirmedLinks db pid).length : Int) ∧
    ∃ dsq, minDistSq db q pid = some dsq ∧
      Real.sqrt (dsq : ℝ) ≤ (cfg.threshold : ℝ) := by
  obtain ⟨d, rest, hpick, hdg⟩ := find_similar_face_some h
  have hmem := pickMin_mem hpick
  obtain ⟨howned, helig, hmin⟩ := mem_candidateDistances hmem
  constructor
  · have h1 : minSamplesOf cfg ≤ ((confirmedLinksWithFid db pid).length : Int) := by
      simpa [isEligiblePerson] using helig
    rw [backed_eq_withFid hri]
    exact le_trans (minSamples_le_minSamplesOf cfg) h1
  · exact ⟨d, hmin, distGT_false_sqrt_le hdg⟩

/-- Witness for C1: two persons owned by user 0, each with two confirmed
exemplars; the resolver matches person 1 at distance 0 under threshold 1/2. -/
def dbW : DB where
  persons := [⟨1, 0, "A", none, none⟩, ⟨2, 0, "B", none, none⟩]
  face_embeddings := [⟨10, 100, none, [0], 0, 0, 0, 0⟩, ⟨11, 101, none, [0], 0, 0, 0, 0⟩,
    ⟨12, 102, none, [1], 0, 0, 0, 0⟩, ⟨13, 103, none, [1], 0, 0, 0, 0⟩]
  photo_persons := [⟨100, 1, some 10, true⟩, ⟨101, 1, some 11, true⟩,
    ⟨102, 2, some 12, true⟩, ⟨103, 2, some 13, true⟩]
  analysis_results := []
  ignored_faces := []
  nextId := 20

/-- Default worker configuration: threshold 0.5, min samples 2, ratio 0.85,
allow-single disabled. -/
def cfgW : MatchConfig := ⟨1/2, 2, 17/20, 17/20, false⟩

unseal Rat.add Rat.mul Rat.sub Rat.inv in
theorem C1_resolver_eligibility_and_threshold_witness :
    refIntegrity dbW = true ∧
    find_similar_face cfgW dbW [0] 0 = some 1 ∧
    (cfgW.minSamples ≤ ((backedConfirmedLinks dbW 1).length : Int) ∧
      ∃ dsq, minDistSq dbW [0] 1 = some dsq ∧
        Real.sqrt (dsq : ℝ) ≤ (cfgW.threshold : ℝ)) :=
  ⟨by decide, by decide,
    C1_resolver_eligibility_and_threshold cfgW dbW [0] 0 1 (by decide) (by decide)⟩

/-- C2: with at least two candidates, where best is the first and second the
next extracted by minimal distance, the resolver returns none whenever the
best distance exceeds ratio times the second distance, and returns the best
candidate whenever it does not (equality at the ratio boundary included),
provided the best distance is within the absolute threshold. -/
theorem C2_margin_decision
    (cfg : MatchConfig) (db : DB) (q : Vec) (owner : Nat)
    (best second : Nat × ℚ) (rest rest2 : List (Nat × ℚ))
    (hr : 0 < ratioOf cfg)
    (h1 : pickMin (candidateDistances db owner (minSamplesOf cfg) q) = some (best, rest))
    (h2 : pickMin rest = some (second, rest2)) :
    (Real.sqrt (second.2 : ℝ) * (ratioOf cfg : ℝ) < Real.sqrt (best.2 : ℝ) →
       find_similar_face cfg db q owner = none) ∧
    (Real.sqrt (best.2 : ℝ) ≤ Real.sqrt (second.2 : ℝ) * (ratioOf cfg : ℝ) →
       Real.sqrt (best.2 : ℝ) ≤ (cfg.threshold : ℝ) →
       find_similar_face cfg db q owner = some best.1) := by
  have hbnn : 0 ≤ best.2 := candidate_nonneg (pickMin_mem h1)
  have hsnn : 0 ≤ second.2 :=
    candidate_nonneg (pickMin_rest_mem h1 second (pickMin_mem h2))
  constructor
  · intro hm
    have hmg : marginGT best.2 second.2 (ratioOf cfg) = true :=
      (marginGT_iff_sqrt _ _ _ hbnn hsnn hr).mpr hm
    cases hdg : distGT best.2 cfg.threshold with
    | true => simp [find_similar_face, h1, h2, hdg]
    | false => simp [find_similar_face, h1, h2, hdg, hmg]
  · intro hm ht
    have hmg : marginGT best.2 second.2 (ratioOf cfg) = false := by
      cases hmgc : marginGT best.2 second.2 (ratioOf cfg) with
      | false => rfl
      | true =>
        exact absurd ((marginGT_iff_sqrt _ _ _ hbnn hsnn hr).mp hmgc) (not_lt.mpr hm)
    have hdg : distGT best.2 cfg.threshold = false := sqrt_le_distGT_false hbnn ht
    simp [find_similar_face, h1, h2, hdg, hmg]

def bestW : Nat × ℚ := (1, 0)

def secondW : Nat × ℚ := (2, 1)

unseal Rat.add Rat.mul Rat.sub Rat.inv in
theorem C2_margin_decision_witness :
    (0 : ℚ) < ratioOf cfgW ∧
    pickMin (candidateDistances dbW 0 (minSamplesOf cfgW) [0]) =
      some (bestW, [(2, 1)]) ∧
    pickMin [((2 : Nat), (1 : ℚ))] = some (secondW, []) ∧
    ((Real.sqrt (secondW.2 : ℝ) * (ratioOf cfgW : ℝ) < Real.sqrt (bestW.2 : ℝ) →
        find_similar_face cfgW dbW [0] 0 = none) ∧
      (Real.sqrt (bestW.2 : ℝ) ≤ Real.sqrt (secondW.2 : ℝ) * (ratioOf cfgW : ℝ) →
        Real.sqrt (bestW.2 : ℝ) ≤ (cfgW.threshold : ℝ) →
        find_similar_face cfgW dbW [0] 0 = some bestW.1)) :=
  ⟨by decide, by decide, by decide,
    C2_margin_decision cfgW dbW [0] 0 bestW secondW [(2, 1)] []
      (by decide) (by decide) (by decide)⟩

/-- C3: with exactly one eligible candidate and allow-single-person-match
disabled, the resolver returns none, regardless of the candidate distance
(in particular at distance 0). -/
theorem C3_single_candidate_rejected
    (cfg : MatchConfig) (db : DB) (q : Vec) (owner : Nat) (c : Nat × ℚ)
    (h1 : candidateDistances db owner (minSamplesOf cfg) q = [c])
    (h2 : cfg.allowSingle = false) :
    find_similar_face cfg db q owner = none := by
  simp [find_similar_face, h1, pickMin, h2]

/-- Single-person database: one owned person with two confirmed exemplars
at distance 0 from the query. -/
def dbW3 : DB where
  persons := [⟨1, 0, "A", none, none⟩]
  face_embeddings := [⟨10, 100, none, [0], 0, 0, 0, 0⟩, ⟨11, 101, none, [0], 0, 0, 0, 0⟩]
  photo_persons := [⟨100, 1, some 10, true⟩, ⟨101, 1, some 11, true⟩]
  analysis_results := []
  ignored_faces := []
  nextId := 20

unseal Rat.add Rat.mul Rat.sub Rat.inv in
theorem C3_single_candidate_rejected_witness :
    candidateDistances dbW3 0 (minSamplesOf cfgW) [0] = [(1, 0)] ∧
    cfgW.allowSingle = false ∧
    find_similar_face cfgW dbW3 [0] 0 = none :=
  ⟨by decide, by decide,
    C3_single_candidate_rejected cfgW dbW3 [0] 0 (1, 0) (by decide) (by decide)⟩

/-! ## Database write operations (db.py) -/

/-- Shared shape of the UPDATE analysis_results ... WHERE media_id
statements: rewrite every row of the media id. -/
def updateMedia (db : DB) (mid : Nat) (g : AnalysisRow → AnalysisRow) : DB :=
  { db with analysis_results := db.analysis_results.map fun r =>
      if r.media_id == mid then g r else r }

/-- Database.create_analysis: upsert the analysis_results row of the media
id to PENDING (ON CONFLICT sets status and updated_at only; a new row gets
the owner and empty result columns). -/
def create_analysis (db : DB) (mid owner now : Nat) : DB :=
  if db.analysis_results.any fun r => r.media_id == mid then
    updateMedia db mid fun r =>
      { r with status := AnalysisStatus.PENDING, updated_at := now }
  else
    { db with analysis_results := db.analysis_results ++
        [{ media_id := mid, owner_id := owner, status := AnalysisStatus.PENDING,
           face_count := none, exif := ExifData.empty, error_message := none,
           updated_at := now }] }

/-- Database.update_analysis_status. -/
def update_analysis_status (db : DB) (mid : Nat) (st : AnalysisStatus) (now : Nat) : DB :=
  updateMedia db mid fun r => { r with status := st, updated_at := now }

/-- Database.update_analysis_complete: DONE with face count, EXIF columns
and timestamps. -/
def update_analysis_complete (db : DB) (mid fc : Nat) (ex : ExifData) (now : Nat) : DB :=
  updateMedia db mid fun r =>
    { r with status := AnalysisStatus.DONE, face_count := some fc, exif := ex,
             updated_at := now }

/-- Database.update_analysis_error: FAILED with the error message. -/
def update_analysis_error (db : DB) (mid : Nat) (msg : String) (now : Nat) : DB :=
  updateMedia db mid fun r =>
    { r with status := AnalysisStatus.FAILED, error_message := some msg,
             updated_at := now }

/-- Database.save_face_embedding: insert a face row under a fresh id and
return it. -/
def save_face_embedding (db : DB) (mid : Nat) (emb : Vec)
    (bx bY bw bh : Int) (pid : Option Nat) : DB × Nat :=
  let fid := db.nextId
  ({ db with
      face_embeddings := db.face_embeddings ++ [⟨fid, mid, pid, emb, bx, bY, bw, bh⟩],
      nextId := fid + 1 }, fid)

/-- Database.link_photo_person: upsert on (media_id, person_id); an existing
link gets the new face_embedding_id and confirmed flag. -/
def link_photo_person (db : DB) (mid pid : Nat) (fid : Option Nat) (conf : Bool) : DB :=
  if db.photo_persons.any fun pp => pp.media_id == mid && pp.person_id == pid then
    { db with photo_persons := db.photo_persons.map fun pp =>
        if pp.media_id == mid && pp.person_id == pid then
          { pp with face_embedding_id := fid, confirmed := conf }
        else pp }
  else
    { db with photo_persons := db.photo_persons ++ [⟨mid, pid, fid, conf⟩] }

/-- Modelled from the spec: Database.mark_stale_processing is called from
main.py lines 44 and 54 but its body is absent from the copy of db.py under
src/.  Per the spec it moves analysis_results rows stuck in PROCESSING for
longer than the configured timeout into FAILED with a stale-timeout reason.
Time is abstract, in the same unit as the timeout. -/
def mark_stale_processing (db : DB) (timeout now : Nat) : DB :=
  { db with analysis_results := db.analysis_results.map fun r =>
      if r.status = AnalysisStatus.PROCESSING ∧ r.updated_at + timeout < now then
        { r with status := AnalysisStatus.FAILED,
                 error_message := some "stale processing timeout", updated_at := now }
      else r }

/-- Modelled from the spec: Database.delete_media_records is called from
main.py line 67 but its body is absent from the copy of db.py under src/.
Per the spec it removes every FaceEmbedding row, every PhotoPersonLink row,
and the AnalysisResult row of the media id. -/
def delete_media_records (db : DB) (mid : Nat) : DB :=
  { db with
      face_embeddings := db.face_embeddings.filter fun fe => !(fe.media_id == mid),
      photo_persons := db.photo_persons.filter fun pp => !(pp.media_id == mid),
      analysis_results := db.analysis_results.filter fun r => !(r.media_id == mid) }

/-- First analysis_results row of a media id, as a status query returns it. -/
def rowOf (db : DB) (mid : Nat) : Option AnalysisRow :=
  db.analysis_results.find? fun r => r.media_id == mid

/-- Status column of the analysis_results row of a media id. -/
def statusOf (db : DB) (mid : Nat) : Option AnalysisStatus :=
  (rowOf db mid).map fun r => r.status

/-! ## Worker event loop (main.py) -/

/-- JSON payload of an inbound message; a missing field models a KeyError
on subscript access. -/
structure Payload where
  id : Option Nat
  ownerId : Option Nat
  storedKey : Option String
  action : Option String
deriving DecidableEq

/-- An inbound pub/sub message of type message; payload none models a JSON
decoding failure. -/
structure Message where
  channel : String
  payload : Option Payload
deriving DecidableEq

/-- A detected face: bounding box and embedding, one entry of the zipped
result of FaceDetector.detect_faces_and_embeddings. -/
structure Face where
  x : Int
  y : Int
  width : Int
  height : Int
  embedding : Vec
deriving DecidableEq

/-- External effects during the handling of one message: the current time,
the stale timeout, the matching configuration, the storage download
result, the parsed EXIF data (ExifParser.parse catches its own errors and
is total), the detector result, and whether publishing succeeds. -/
structure ExtInput where
  now : Nat
  timeout : Nat
  cfg : MatchConfig
  download : String → Except String Unit
  exif : ExifData
  detect : Except String (List Face)
  publishOk : Bool

/-- Step 3 of main.py: for each detected face, resolve the identity against
the current database, save the embedding with person_id None, record an
unconfirmed link when a match was found, and count the face. -/
def processFaces (cfg : MatchConfig) (db : DB) (mid owner : Nat) :
    List Face → DB × Nat
  | [] => (db, 0)
  | f :: rest =>
    let similar := find_similar_face cfg db f.embedding owner
    let saved := save_face_embedding db mid f.embedding f.x f.y f.width f.height none
    let db2 :=
      match similar with
      | some pid => link_photo_person saved.1 mid pid (some saved.2) false
      | none => saved.1
    let next := processFaces cfg db2 mid owner rest
    (next.1, next.2 + 1)

/-- The try body of the message loop (main.py lines 56-128), run against
the swept database: returns the media id resolved from the payload so far,
the database after the steps that ran, and the raised error, if any.  The
completion publish runs only after update_analysis_complete; its failure
surfaces as the error of this step. -/
def tryBody (env : ExtInput) (db : DB) (msg : Message) :
    Option Nat × DB × Option String :=
  match msg.payload with
  | none => (none, db, some "json decode error")
  | some payload =>
    match payload.id with
    | none => (none, db, some "KeyError: id")
    | some mid =>
      match payload.ownerId with
      | none => (some mid, db, some "KeyError: ownerId")
      | some owner =>
        match payload.storedKey with
        | none => (some mid, db, some "KeyError: storedKey")
        | some key =>
          if msg.channel == "photo:deleted" || payload.action == some "deleted" then
            (some mid, delete_media_records db mid, none)
          else
            let db2 := update_analysis_status
              (create_analysis db mid owner env.now) mid
              AnalysisStatus.PROCESSING env.now
            match env.download key with
            | Except.error e => (some mid, db2, some e)
            | Except.ok _ =>
              match env.detect with
              | Except.error e => (some mid, db2, some e)
              | Except.ok faces =>
                let pf := processFaces env.cfg db2 mid owner faces
                let db4 := update_analysis_complete pf.1 mid pf.2 env.exif env.now
                if env.publishOk then (some mid, db4, none)
                else (some mid, db4, some "publish error")

/-- Worker loop state: the database and the media_id local variable of the
handler, which persists across loop iterations (main.py checks it with
locals()). -/
structure WorkerState where
  db : DB
  lastMediaId : Option Nat

/-- One iteration of the message loop of main.py: stale sweep, then the
try body; an exception marks the analysis of the media id currently held
by the media_id local as FAILED, when one is held. -/
def processMessage (env : ExtInput) (st : WorkerState) (msg : Message) : WorkerState :=
  let r := tryBody env (mark_stale_processing st.db env.timeout env.now) msg
  let resolved :=
    match r.1 with
    | some m => some m
    | none => st.lastMediaId
  match r.2.2 with
  | none => { db := r.2.1, lastMediaId := resolved }
  | some e =>
    match resolved with
    | some m => { db := update_analysis_error r.2.1 m e env.now, lastMediaId := resolved }
    | none => { db := r.2.1, lastMediaId := resolved }

/-- The message loop over a stream of messages, each with its external
effects (non-message pub/sub entries are skipped before this). -/
def runWorker (st : WorkerState) : List (ExtInput × Message) → WorkerState
  | [] => st
  | (env, msg) :: rest => runWorker (processMessage env st msg) rest

/-! ## Stale-processing recovery (C5) and the delete path (C4) -/

/-- No analysis row is in PROCESSING beyond the stale timeout at time now. -/
def NoStale (db : DB) (timeout now : Nat) : Prop :=
  ∀ r ∈ db.analysis_results, r.status = AnalysisStatus.PROCESSING →
    now ≤ r.updated_at + timeout

theorem NoStale_mark (db : DB) (t n : Nat) : NoStale (mark_stale_processing db t n) t n := by
  intro r hr hst
  simp only [mark_stale_processing, List.mem_map] at hr
  obtain ⟨a, ha, heq⟩ := hr
  split at heq
  · rw [← heq] at hst
    simp at hst
  · rw [← heq] at hst ⊢
    rename_i hc
    push_neg at hc
    have h2 := hc hst
    omega

theorem NoStale_updateMedia {db : DB} {mid : Nat} {g : AnalysisRow → AnalysisRow}
    {t n : Nat} (h : NoStale db t n)
    (hg : ∀ a, (g a).status = AnalysisStatus.PROCESSING → n ≤ (g a).updated_at + t) :
    NoStale (updateMedia db mid g) t n := by
  intro r hr hst
  simp only [updateMedia, List.mem_map] at hr
  obtain ⟨a, ha, heq⟩ := hr
  split at heq
  · rw [← heq] at hst ⊢
    exact hg a hst
  · rw [← heq] at hst ⊢
    exact h a ha hst

theorem NoStale_create {db : DB} {mid owner n t : Nat} (h : NoStale db t n) :
    NoStale (create_analysis db mid owner n) t n := by
  unfold create_analysis
  split
  · exact NoStale_updateMedia h fun a hA => by simp at hA
  · intro r hr hst
    simp only [List.mem_append, List.mem_singleton] at hr
    rcases hr with hr | hr
    · exact h r hr hst
    · rw [hr] at hst
      simp at hst

theorem NoStale_update_status {db : DB} {mid : Nat} {s : AnalysisStatus} {n t : Nat}
    (h : NoStale db t n) : NoStale (update_analysis_status db mid s n) t n :=
  NoStale_updateMedia h fun _ _ => by show n ≤ n + t; omega

theorem NoStale_update_complete {db : DB} {mid fc : Nat} {ex : ExifData} {n t : Nat}
    (h : NoStale db t n) : NoStale (update_analysis_complete db mid fc ex n) t n :=
  NoStale_updateMedia h fun _ _ => by show n ≤ n + t; omega

theorem NoStale_update_error {db : DB} {mid : Nat} {e : String} {n t : Nat}
    (h : NoStale db t n) : NoStale (update_analysis_error db mid e n) t n :=
  NoStale_updateMedia h fun _ _ => by show n ≤ n + t; omega

theorem NoStale_delete {db : DB} {mid t n : Nat} (h : NoStale db t n) :
    NoStale (delete_media_records db mid) t n := by
  intro r hr hst
  exact h r (List.mem_of_mem_filter hr) hst

theorem save_analysis_eq (db : DB) (mid : Nat) (emb : Vec) (a b c d : Int)
    (pid : Option Nat) :
    (save_face_embedding db mid emb a b c d pid).1.analysis_results =
      db.analysis_results := rfl

theorem link_analysis_eq (db : DB) (mid pid : Nat) (fid : Option Nat) (conf : Bool) :
    (link_photo_person db mid pid fid conf).analysis_results = db.analysis_results := by
  unfold link_photo_person
  split <;> rfl

theorem processFaces_analysis_eq (cfg : MatchConfig) (mid owner : Nat)
    (fs : List Face) : ∀ db : DB,
    (processFaces cfg db mid owner fs).1.analysis_results = db.analysis_results := by
  induction fs with
  | nil => intro db; rfl
  | cons f rest ih =>
    intro db
    simp only [processFaces]
    rw [ih]
    cases find_similar_face cfg db f.embedding owner with
    | none => rfl
    | some pid => exact link_analysis_eq _ _ _ _ _

theorem NoStale_tryBody (env : ExtInput) (db : DB) (msg : Message)
    (h : NoStale db env.timeout env.now) :
    NoStale (tryBody env db msg).2.1 env.timeout env.now := by
  unfold tryBody
  cases hpl : msg.payload with
  | none => exact h
  | some payload =>
    dsimp only
    cases hid : payload.id with
    | none => exact h
    | some mid =>
      dsimp only
      cases how : payload.ownerId with
      | none => exact h
      | some owner =>
        dsimp only
        cases hk : payload.storedKey with
        | none => exact h
        | some key =>
          dsimp only
          split
          · exact NoStale_delete h
          · have h2 : NoStale (update_analysis_status
                (create_analysis db mid owner env.now) mid
                AnalysisStatus.PROCESSING env.now) env.timeout env.now :=
              NoStale_update_status (NoStale_create h)
            cases hdl : env.download key with
            | error e => exact h2
            | ok u =>
              dsimp only
              cases hdet : env.detect with
              | error e => exact h2
              | ok faces =>
                dsimp only
                have h3 : NoStale (processFaces env.cfg (update_analysis_status
                    (create_analysis db mid owner env.now) mid
                    AnalysisStatus.PROCESSING env.now) mid owner faces).1
                    env.timeout env.now := by
                  intro r hr hst
                  rw [processFaces_analysis_eq] at hr
                  exact h2 r hr hst
                split
                · exact NoStale_update_complete h3
                · exact NoStale_update_complete h3

theorem processMessage_NoStale (env : ExtInput) (st : WorkerState) (msg : Message) :
    NoStale (processMessage env st msg).db env.timeout env.now := by
  have h0 := NoStale_mark st.db env.timeout env.now
  have h1 := NoStale_tryBody env _ msg h0
  simp only [processMessage]
  split
  · exact h1
  · split
    · exact NoStale_update_error h1
    · exact h1

/-- C5: the stale sweep runs at startup and at the start of every message
handling; after the sweep, and after the whole handling of any message, no
AnalysisResult row remains in PROCESSING beyond the configured timeout. -/
theorem C5_stale_processing_swept
    (env : ExtInput) (st : WorkerState) (msg : Message) :
    (∀ r ∈ (mark_stale_processing st.db env.timeout env.now).analysis_results,
       r.status = AnalysisStatus.PROCESSING → env.now ≤ r.updated_at + env.timeout) ∧
    (∀ r ∈ (processMessage env st msg).db.analysis_results,
       r.status = AnalysisStatus.PROCESSING → env.now ≤ r.updated_at + env.timeout) :=
  ⟨NoStale_mark _ _ _, processMessage_NoStale env st msg⟩

def dbW5 : DB where
  persons := []
  face_embeddings := []
  photo_persons := []
  analysis_results := [⟨1, 0, AnalysisStatus.PROCESSING, none, ExifData.empty, none, 8⟩]
  ignored_faces := []
  nextId := 0

def rW5 : AnalysisRow := ⟨1, 0, AnalysisStatus.PROCESSING, none, ExifData.empty, none, 8⟩

def envW5 : ExtInput where
  now := 10
  timeout := 5
  cfg := cfgW
  download := fun _ => Except.ok ()
  exif := ExifData.empty
  detect := Except.ok []
  publishOk := true

def msgW5 : Message := ⟨"photo:uploaded", some ⟨some 2, some 0, some "k", none⟩⟩

theorem C5_stale_processing_swept_witness :
    rW5 ∈ (processMessage envW5 ⟨dbW5, none⟩ msgW5).db.analysis_results ∧
    rW5.status = AnalysisStatus.PROCESSING ∧
    envW5.now ≤ rW5.updated_at + envW5.timeout :=
  ⟨by decide, by decide,
    (C5_stale_processing_swept envW5 ⟨dbW5, none⟩ msgW5).2 rW5 (by decide) (by decide)⟩

/-- Database, input and message of the failing delete event: an existing
analysis with one face and one link for media 5, and a photo:deleted
message with the specified payload shape {id, ownerId}. -/
def dbC4 : DB where
  persons := []
  face_embeddings := [⟨10, 5, none, [], 0, 0, 0, 0⟩]
  photo_persons := [⟨5, 1, some 10, false⟩]
  analysis_results := [⟨5, 0, AnalysisStatus.DONE, some 1, ExifData.empty, none, 100⟩]
  ignored_faces := []
  nextId := 11

def envC4 : ExtInput where
  now := 100
  timeout := 1000
  cfg := cfgW
  download := fun _ => Except.ok ()
  exif := ExifData.empty
  detect := Except.ok []
  publishOk := true

def msgC4 : Message := ⟨"photo:deleted", some ⟨some 5, some 0, none, none⟩⟩

/-- C4: evaluation at the failing input.  main.py line 63 subscripts
payload[storedKey] before the delete branch of line 65, and the specified
photo:deleted payload {id, ownerId} has no storedKey, so a KeyError is
raised first: the FaceEmbedding and PhotoPersonLink rows survive, nothing
is deleted, and the AnalysisResult of media 5 is marked FAILED instead of
removed - a status query still finds the row. -/
theorem C4_delete_event_unreachable :
    (processMessage envC4 ⟨dbC4, none⟩ msgC4).db.face_embeddings = dbC4.face_embeddings ∧
    (processMessage envC4 ⟨dbC4, none⟩ msgC4).db.photo_persons = dbC4.photo_persons ∧
    statusOf (processMessage envC4 ⟨dbC4, none⟩ msgC4).db 5 = some AnalysisStatus.FAILED ∧
    (rowOf (processMessage envC4 ⟨dbC4, none⟩ msgC4).db 5).isSome = true :=
  ⟨by decide, by decide, by decide, by decide⟩

/-! ## Error handling at the loop boundary (C6, C7) -/

/-- The try-body step of a message against the swept database. -/
def bodyStep (env : ExtInput) (st : WorkerState) (msg : Message) :
    Option Nat × DB × Option String :=
  tryBody env (mark_stale_processing st.db env.timeout env.now) msg

theorem processMessage_error_db (env : ExtInput) (st : WorkerState) (msg : Message)
    (e : String) (m : Nat)
    (he : (bodyStep env st msg).2.2 = some e)
    (hm : (match (bodyStep env st msg).1 with
           | some x => some x
           | none => st.lastMediaId) = some m) :
    (processMessage env st msg).db =
      update_analysis_error (bodyStep env st msg).2.1 m e env.now := by
  simp only [bodyStep] at he hm
  simp only [processMessage, bodyStep, he, hm]

theorem processMessage_error_none_db (env : ExtInput) (st : WorkerState) (msg : Message)
    (e : String)
    (he : (bodyStep env st msg).2.2 = some e)
    (hn : (bodyStep env st msg).1 = none)
    (hl : st.lastMediaId = none) :
    (processMessage env st msg).db = (bodyStep env st msg).2.1 := by
  simp only [bodyStep] at he hn
  simp only [processMessage, bodyStep, he, hn, hl]

theorem processMessage_ok_db (env : ExtInput) (st : WorkerState) (msg : Message)
    (he : (bodyStep env st msg).2.2 = none) :
    (processMessage env st msg).db = (bodyStep env st msg).2.1 := by
  simp only [bodyStep] at he
  simp only [processMessage, bodyStep, he]

theorem update_error_mem {db : DB} {mid : Nat} {e : String} {n : Nat} {r : AnalysisRow}
    (hr : r ∈ (update_analysis_error db mid e n).analysis_results) :
    (r.media_id = mid → r.status = AnalysisStatus.FAILED ∧ r.error_message = some e) ∧
    (r.media_id ≠ mid → r ∈ db.analysis_results) := by
  simp only [update_analysis_error, updateMedia, List.mem_map] at hr
  obtain ⟨a, ha, heq⟩ := hr
  split at heq
  · rename_i hc
    constructor
    · intro _
      rw [← heq]
      exact ⟨rfl, rfl⟩
    · intro hne
      rw [← heq] at hne
      have hc2 : a.media_id = mid := by simpa using hc
      exact absurd hc2 hne
  · rename_i hc
    constructor
    · intro hmid
      rw [← heq] at hmid
      simp [hmid] at hc
    · intro _
      rw [← heq]
      exact ha

/-- C6 (amended): an exception in the try body is caught and the loop
continues; the error handling marks FAILED the rows of the media id held
by the media_id local - the id resolved from the current payload when it
provided one, otherwise the id retained from an earlier message - leaving
rows of every other media id exactly as the sweep and the partial body
left them; when no id was ever resolved, the database is exactly the
sweep-and-partial-body result. -/
theorem C6_error_marks_local_media_id
    (env : ExtInput) (st : WorkerState) (msg : Message) (e : String)
    (he : (bodyStep env st msg).2.2 = some e) :
    (∀ m, ((bodyStep env st msg).1 = some m ∨
           ((bodyStep env st msg).1 = none ∧ st.lastMediaId = some m)) →
       ∀ r ∈ (processMessage env st msg).db.analysis_results,
         (r.media_id = m → r.status = AnalysisStatus.FAILED ∧
            r.error_message = some e) ∧
         (r.media_id ≠ m → r ∈ (bodyStep env st msg).2.1.analysis_results)) ∧
    ((bodyStep env st msg).1 = none → st.lastMediaId = none →
       (processMessage env st msg).db = (bodyStep env st msg).2.1) := by
  constructor
  · intro m hm r hr
    have hmm : (match (bodyStep env st msg).1 with
                | some x => some x
                | none => st.lastMediaId) = some m := by
      rcases hm with hm | ⟨hm1, hm2⟩
      · rw [hm]
      · rw [hm1]
        exact hm2
    rw [processMessage_error_db env st msg e m he hmm] at hr
    exact update_error_mem hr
  · intro hn hl
    exact processMessage_error_none_db env st msg e he hn hl

def dbC6w : DB where
  persons := []
  face_embeddings := []
  photo_persons := []
  analysis_results := [⟨7, 0, AnalysisStatus.DONE, some 2, ExifData.empty, none, 50⟩]
  ignored_faces := []
  nextId := 0

def envC6w : ExtInput where
  now := 60
  timeout := 100
  cfg := cfgW
  download := fun _ => Except.ok ()
  exif := ExifData.empty
  detect := Except.ok []
  publishOk := true

/-- Message whose payload has an id but no ownerId: the handler raises at
the ownerId subscript after media_id was assigned. -/
def msgC6w : Message := ⟨"photo:uploaded", some ⟨some 7, none, none, none⟩⟩

def rC6w : AnalysisRow :=
  ⟨7, 0, AnalysisStatus.FAILED, some 2, ExifData.empty, some "KeyError: ownerId", 60⟩

unseal Rat.add Rat.mul Rat.sub Rat.inv in
theorem C6_error_marks_local_media_id_witness :
    (bodyStep envC6w ⟨dbC6w, none⟩ msgC6w).2.2 = some "KeyError: ownerId" ∧
    rC6w ∈ (processMessage envC6w ⟨dbC6w, none⟩ msgC6w).db.analysis_results ∧
    ((rC6w.media_id = 7 → rC6w.status = AnalysisStatus.FAILED ∧
        rC6w.error_message = some "KeyError: ownerId") ∧
     (rC6w.media_id ≠ 7 →
        rC6w ∈ (bodyStep envC6w ⟨dbC6w, none⟩ msgC6w).2.1.analysis_results)) :=
  ⟨by decide, by decide,
    (C6_error_marks_local_media_id envC6w ⟨dbC6w, none⟩ msgC6w "KeyError: ownerId"
        (by decide)).1 7 (Or.inl (by decide)) rC6w (by decide)⟩

def envC6a : ExtInput where
  now := 10
  timeout := 100
  cfg := cfgW
  download := fun _ => Except.ok ()
  exif := ExifData.empty
  detect := Except.ok []
  publishOk := true

def envC6b : ExtInput where
  now := 11
  timeout := 100
  cfg := cfgW
  download := fun _ => Except.ok ()
  exif := ExifData.empty
  detect := Except.ok []
  publishOk := true

def msgC6a : Message := ⟨"photo:uploaded", some ⟨some 1, some 0, some "k", none⟩⟩

/-- A message whose JSON body does not parse: no media id is resolved from
its payload. -/
def msgC6b : Message := ⟨"photo:uploaded", none⟩

def dbEmpty : DB := ⟨[], [], [], [], [], 0⟩

/-- C6 counterexample: message 1 analyzes media 1 to DONE; message 2
resolves no media id from its payload (its JSON does not parse), yet its
handling marks the AnalysisResult of media 1 FAILED, because the media_id
local still holds the id of the previous message - refuting the claim that
a message which resolved no media id modifies no AnalysisResult. -/
theorem C6_stale_local_counterexample :
    statusOf (processMessage envC6a ⟨dbEmpty, none⟩ msgC6a).db 1 =
      some AnalysisStatus.DONE ∧
    msgC6b.payload = none ∧
    statusOf (processMessage envC6b
        (processMessage envC6a ⟨dbEmpty, none⟩ msgC6a) msgC6b).db 1 =
      some AnalysisStatus.FAILED :=
  ⟨by decide, by decide, by decide⟩

/-! ## Person API endpoints (person-api/src/main.py) -/

/-- An HTTPException: status code and detail string. -/
structure HttpError where
  status : Nat
  detail : String
deriving DecidableEq

/-- Body of PUT /persons: optional partial fields. -/
structure PersonUpdate where
  name : Option String
  relationship : Option String
  notes : Option String
deriving DecidableEq

/-- COALESCE(%s, column) of the UPDATE persons statement. -/
def applyPersonUpdate (u : PersonUpdate) (p : PersonRow) : PersonRow :=
  { p with
      name := u.name.getD p.name,
      relationship := match u.relationship with
        | some v => some v
        | none => p.relationship,
      notes := match u.notes with
        | some v => some v
        | none => p.notes }

/-- GET /persons/person_id: single row scoped by id and owner; 404 when no
row matches both. -/
def get_person (db : DB) (pid uid : Nat) : Except HttpError PersonRow :=
  match db.persons.find? fun p => p.id == pid && p.owner_id == uid with
  | some p => Except.ok p
  | none => Except.error ⟨404, "Person not found"⟩

/-- PUT /persons/person_id: owner-scoped COALESCE update RETURNING the
row; 404 when nothing matched.  Returns the database after the request
and the response. -/
def update_person (db : DB) (pid : Nat) (u : PersonUpdate) (uid : Nat) :
    DB × Except HttpError PersonRow :=
  let db2 := { db with persons := db.persons.map fun p =>
      if p.id == pid && p.owner_id == uid then applyPersonUpdate u p else p }
  match db.persons.find? fun p => p.id == pid && p.owner_id == uid with
  | some p => (db2, Except.ok (applyPersonUpdate u p))
  | none => (db2, Except.error ⟨404, "Person not found"⟩)

/-- DELETE /persons/person_id: owner-scoped delete; 404 when the rowcount
is zero. -/
def delete_person (db : DB) (pid uid : Nat) : DB × Except HttpError String :=
  let db2 := { db with persons := db.persons.filter fun p =>
      !(p.id == pid && p.owner_id == uid) }
  if (db.persons.filter fun p => p.id == pid && p.owner_id == uid).length == 0 then
    (db2, Except.error ⟨404, "Person not found"⟩)
  else
    (db2, Except.ok "Deleted")

/-- GET /analysis/media_id: analysis row scoped by media id and owner. -/
def get_analysis_status (db : DB) (mid uid : Nat) : Except HttpError AnalysisRow :=
  match db.analysis_results.find? fun r => r.media_id == mid && r.owner_id == uid with
  | some r => Except.ok r
  | none => Except.error ⟨404, "Analysis not found"⟩

/-- POST /faces/face_id/assign: validates person ownership, sets the face's
person_id, removes any ignore marker and unconfirmed links of the face,
upserts a confirmed photo_persons link, commits, then publishes the
reindex event inside its own try/except.  Returns the database, the
response (the media id on success), and the published events; only the
events depend on publish success. -/
def assign_face_to_person (db : DB) (fid pid uid : Nat) (publishOk : Bool) :
    DB × Except HttpError Nat × List Nat :=
  match db.persons.find? fun p => p.id == pid && p.owner_id == uid with
  | none => (db, Except.error ⟨404, "Person not found"⟩, [])
  | some _ =>
    match db.face_embeddings.find? fun fe => fe.id == fid with
    | none => (db, Except.error ⟨404, "Face not found"⟩, [])
    | some fe =>
      let faces2 := db.face_embeddings.map fun (f : FaceEmbeddingRow) =>
        if f.id == fid then { f with person_id := some pid } else f
      let ignored2 := db.ignored_faces.filter fun (ig : IgnoredFaceRow) =>
        !(ig.owner_id == uid && ig.face_embedding_id == fid)
      let links2 := db.photo_persons.filter fun (pp : PhotoPersonRow) =>
        !(pp.face_embedding_id == some fid && !pp.confirmed)
      let db3 := { db with
        face_embeddings := faces2
        ignored_faces := ignored2
        photo_persons := links2 }
      let db4 := link_photo_person db3 fe.media_id pid (some fid) true
      (db4, Except.ok fe.media_id, if publishOk then [fe.media_id] else [])

/-! ## Row-level lemmas about the analysis updates (for C7, C8) -/

theorem statusOf_eq_of_all {db : DB} {mid : Nat} {s : AnalysisStatus}
    (hex : ∃ r ∈ db.analysis_results, r.media_id = mid)
    (hall : ∀ r ∈ db.analysis_results, r.media_id = mid → r.status = s) :
    statusOf db mid = some s := by
  obtain ⟨r0, hr0, hm0⟩ := hex
  have hfind : ∃ r, (db.analysis_results.find? fun r => r.media_id == mid) = some r := by
    rw [← Option.isSome_iff_exists, List.find?_isSome]
    exact ⟨r0, hr0, by simp [hm0]⟩
  obtain ⟨r, hr⟩ := hfind
  have hmem := List.mem_of_find?_eq_some hr
  have hprop : r.media_id = mid := by simpa using List.find?_some hr
  simp [statusOf, rowOf, hr, hall r hmem hprop]

theorem updateMedia_all_rel {db : DB} {mid : Nat} {g : AnalysisRow → AnalysisRow}
    (P Q : AnalysisRow → Prop)
    (hdb : ∀ a ∈ db.analysis_results, a.media_id = mid → Q a)
    (hg : ∀ a, Q a → P (g a))
    (hgm : ∀ a, (g a).media_id = a.media_id) :
    ∀ r ∈ (updateMedia db mid g).analysis_results, r.media_id = mid → P r := by
  intro r hr hm
  simp only [updateMedia, List.mem_map] at hr
  obtain ⟨a, ha, heq⟩ := hr
  split at heq
  · rename_i hc
    rw [← heq]
    exact hg a (hdb a ha (by simpa using hc))
  · rename_i hc
    rw [← heq] at hm
    simp [hm] at hc

theorem updateMedia_exists {db : DB} {mid : Nat} {g : AnalysisRow → AnalysisRow}
    (hgm : ∀ a, (g a).media_id = a.media_id)
    (h : ∃ r ∈ db.analysis_results, r.media_id = mid) :
    ∃ r ∈ (updateMedia db mid g).analysis_results, r.media_id = mid := by
  obtain ⟨a, ha, hm⟩ := h
  refine ⟨if a.media_id == mid then g a else a, ?_, ?_⟩
  · simp only [updateMedia, List.mem_map]
    exact ⟨a, ha, rfl⟩
  · split
    · rw [hgm]
      exact hm
    · exact hm

theorem create_analysis_exists (db : DB) (mid owner n : Nat) :
    ∃ r ∈ (create_analysis db mid owner n).analysis_results, r.media_id = mid := by
  unfold create_analysis
  split
  · rename_i hc
    rw [List.any_eq_true] at hc
    obtain ⟨a, ha, hm⟩ := hc
    exact updateMedia_exists (fun _ => rfl) ⟨a, ha, by simpa using hm⟩
  · refine ⟨⟨mid, owner, AnalysisStatus.PENDING, none, ExifData.empty, none, n⟩, ?_, rfl⟩
    simp

theorem create_analysis_all_pending (db : DB) (mid owner n : Nat) :
    ∀ r ∈ (create_analysis db mid owner n).analysis_results, r.media_id = mid →
      r.status = AnalysisStatus.PENDING := by
  unfold create_analysis
  split
  · exact updateMedia_all_rel _ (fun _ => True) (fun _ _ _ => trivial)
      (fun _ _ => rfl) (fun _ => rfl)
  · rename_i hc
    intro r hr hm
    simp only [List.mem_append, List.mem_singleton] at hr
    rcases hr with hr | hr
    · exfalso
      apply hc
      rw [List.any_eq_true]
      exact ⟨r, hr, by simp [hm]⟩
    · rw [hr]

theorem statusOf_update_error_of_exists {db : DB} {mid : Nat} {e : String} {n : Nat}
    (hex : ∃ r ∈ db.analysis_results, r.media_id = mid) :
    statusOf (update_analysis_error db mid e n) mid = some AnalysisStatus.FAILED := by
  apply statusOf_eq_of_all
  · exact updateMedia_exists (fun _ => rfl) hex
  · exact updateMedia_all_rel _ (fun _ => True) (fun _ _ _ => trivial)
      (fun _ _ => rfl) (fun _ => rfl)

theorem statusOf_update_complete_of_exists {db : DB} {mid fc : Nat} {ex : ExifData}
    {n : Nat} (hex : ∃ r ∈ db.analysis_results, r.media_id = mid) :
    statusOf (update_analysis_complete db mid fc ex n) mid =
      some AnalysisStatus.DONE := by
  apply statusOf_eq_of_all
  · exact updateMedia_exists (fun _ => rfl) hex
  · exact updateMedia_all_rel _ (fun _ => True) (fun _ _ _ => trivial)
      (fun _ _ => rfl) (fun _ => rfl)

theorem error_after_complete_all {db : DB} {mid fc : Nat} {ex : ExifData}
    {e : String} {n n2 : Nat} :
    ∀ r ∈ (update_analysis_error (update_analysis_complete db mid fc ex n)
        mid e n2).analysis_results,
      r.media_id = mid →
        r.status = AnalysisStatus.FAILED ∧ r.error_message = some e ∧
        r.face_count = some fc ∧ r.exif = ex := by
  unfold update_analysis_error
  exact updateMedia_all_rel
    (fun r => r.status = AnalysisStatus.FAILED ∧ r.error_message = some e ∧
      r.face_count = some fc ∧ r.exif = ex)
    (fun a => a.face_count = some fc ∧ a.exif = ex)
    (by unfold update_analysis_complete
        exact updateMedia_all_rel _ (fun _ => True) (fun _ _ _ => trivial)
          (fun _ _ => ⟨rfl, rfl⟩) (fun _ => rfl))
    (fun a hQ => ⟨rfl, rfl, hQ.1, hQ.2⟩)
    (fun _ => rfl)

/-- The try body of an upload message (the delete branch not taken),
reduced to its download / detect / publish case split. -/
theorem tryBody_upload (env : ExtInput) (db : DB) (msg : Message)
    (payload : Payload) (mid owner : Nat) (key : String)
    (hp : msg.payload = some payload) (hid : payload.id = some mid)
    (how : payload.ownerId = some owner) (hk : payload.storedKey = some key)
    (hch : (msg.channel == "photo:deleted" || payload.action == some "deleted") = false) :
    tryBody env db msg =
      (let db2 := update_analysis_status (create_analysis db mid owner env.now) mid
          AnalysisStatus.PROCESSING env.now
      match env.download key with
      | Except.error e => (some mid, db2, some e)
      | Except.ok _ =>
        match env.detect with
        | Except.error e => (some mid, db2, some e)
        | Except.ok faces =>
          let pf := processFaces env.cfg db2 mid owner faces
          let db4 := update_analysis_complete pf.1 mid pf.2 env.exif env.now
          if env.publishOk then (some mid, db4, none)
          else (some mid, db4, some "publish error")) := by
  simp only [tryBody, hp, hid, how, hk, hch, Bool.false_eq_true, if_false]

/-! ## Claims C7 and C8: publish failures and idempotent re-analysis -/

/-- C7 (amended): in the worker, a failure of publishing the completion
event is caught at the loop boundary like any other exception: the
committed face_count and EXIF fields of the completed analysis survive,
but the status is overwritten from DONE to FAILED with the publish error -
it does not stay DONE; in the admin API, a failure of publishing the
reindex event is caught inside the endpoint and changes neither the
database nor the response. -/
theorem C7_publish_failure_effects
    (env : ExtInput) (st : WorkerState) (msg : Message)
    (payload : Payload) (mid owner : Nat) (key : String) (faces : List Face)
    (hp : msg.payload = some payload) (hid : payload.id = some mid)
    (how : payload.ownerId = some owner) (hk : payload.storedKey = some key)
    (hch : (msg.channel == "photo:deleted" || payload.action == some "deleted") = false)
    (hdl : env.download key = Except.ok ()) (hdet : env.detect = Except.ok faces)
    (hpub : env.publishOk = false) :
    ((∃ r ∈ (processMessage env st msg).db.analysis_results, r.media_id = mid) ∧
     (∀ r ∈ (processMessage env st msg).db.analysis_results, r.media_id = mid →
        r.status = AnalysisStatus.FAILED ∧ r.error_message = some "publish error" ∧
        r.face_count = some (processFaces env.cfg (update_analysis_status
            (create_analysis (mark_stale_processing st.db env.timeout env.now)
              mid owner env.now) mid AnalysisStatus.PROCESSING env.now)
            mid owner faces).2 ∧
        r.exif = env.exif)) ∧
    (∀ (db : DB) (fid pid uid : Nat),
       (assign_face_to_person db fid pid uid false).1 =
         (assign_face_to_person db fid pid uid true).1 ∧
       (assign_face_to_person db fid pid uid false).2.1 =
         (assign_face_to_person db fid pid uid true).2.1) := by
  have htb := tryBody_upload env (mark_stale_processing st.db env.timeout env.now)
    msg payload mid owner key hp hid how hk hch
  simp only [hdl, hdet, hpub, Bool.false_eq_true, if_false] at htb
  have hb : bodyStep env st msg =
      (some mid,
       update_analysis_complete
         (processFaces env.cfg (update_analysis_status
           (create_analysis (mark_stale_processing st.db env.timeout env.now)
             mid owner env.now) mid AnalysisStatus.PROCESSING env.now)
           mid owner faces).1
         mid
         (processFaces env.cfg (update_analysis_status
           (create_analysis (mark_stale_processing st.db env.timeout env.now)
             mid owner env.now) mid AnalysisStatus.PROCESSING env.now)
           mid owner faces).2
         env.exif env.now,
       some "publish error") := htb
  have he : (bodyStep env st msg).2.2 = some "publish error" := by rw [hb]
  have hmm : (match (bodyStep env st msg).1 with
              | some x => some x
              | none => st.lastMediaId) = some mid := by rw [hb]
  have hdb := processMessage_error_db env st msg "publish error" mid he hmm
  have hex2 : ∃ r ∈ (update_analysis_status (create_analysis
      (mark_stale_processing st.db env.timeout env.now) mid owner env.now) mid
      AnalysisStatus.PROCESSING env.now).analysis_results, r.media_id = mid :=
    updateMedia_exists (fun _ => rfl)
      (create_analysis_exists (mark_stale_processing st.db env.timeout env.now)
        mid owner env.now)
  have hexpf : ∃ r ∈ (processFaces env.cfg (update_analysis_status
      (create_analysis (mark_stale_processing st.db env.timeout env.now)
        mid owner env.now) mid AnalysisStatus.PROCESSING env.now)
      mid owner faces).1.analysis_results, r.media_id = mid := by
    rw [processFaces_analysis_eq]
    exact hex2
  refine ⟨⟨?_, ?_⟩, ?_⟩
  · rw [hdb, hb]
    exact updateMedia_exists (fun _ => rfl) (updateMedia_exists (fun _ => rfl) hexpf)
  · intro r hr hm
    rw [hdb, hb] at hr
    exact error_after_complete_all r hr hm
  · intro db fid pid uid
    constructor
    · unfold assign_face_to_person
      cases db.persons.find? fun p => p.id == pid && p.owner_id == uid with
      | none => rfl
      | some p =>
        cases db.face_embeddings.find? fun fe => fe.id == fid with
        | none => rfl
        | some fe => rfl
    · unfold assign_face_to_person
      cases db.persons.find? fun p => p.id == pid && p.owner_id == uid with
      | none => rfl
      | some p =>
        cases db.face_embeddings.find? fun fe => fe.id == fid with
        | none => rfl
        | some fe => rfl

def envC7 : ExtInput where
  now := 20
  timeout := 100
  cfg := cfgW
  download := fun _ => Except.ok ()
  exif := ExifData.empty
  detect := Except.ok []
  publishOk := false

def payloadC7 : Payload := ⟨some 3, some 0, some "k", none⟩

def msgC7 : Message := ⟨"photo:uploaded", some payloadC7⟩

/-- C7 counterexample: download and detection succeed (zero faces) and the
analysis completes, but the publish fails; the final status of media 3 is
FAILED with the publish error, not DONE - refuting the claim that a
publish failure leaves the committed status DONE unchanged. -/
theorem C7_publish_failure_counterexample :
    envC7.publishOk = false ∧
    statusOf (processMessage envC7 ⟨dbEmpty, none⟩ msgC7).db 3 =
      some AnalysisStatus.FAILED ∧
    rowOf (processMessage envC7 ⟨dbEmpty, none⟩ msgC7).db 3 =
      some ⟨3, 0, AnalysisStatus.FAILED, some 0, ExifData.empty,
        some "publish error", 20⟩ :=
  ⟨rfl, by decide, by decide⟩

unseal Rat.add Rat.mul Rat.sub Rat.inv in
theorem C7_publish_failure_effects_witness :
    envC7.publishOk = false ∧
    (((∃ r ∈ (processMessage envC7 ⟨dbEmpty, none⟩ msgC7).db.analysis_results,
        r.media_id = 3) ∧
      (∀ r ∈ (processMessage envC7 ⟨dbEmpty, none⟩ msgC7).db.analysis_results,
        r.media_id = 3 →
          r.status = AnalysisStatus.FAILED ∧ r.error_message = some "publish error" ∧
          r.face_count = some (processFaces envC7.cfg (update_analysis_status
              (create_analysis (mark_stale_processing dbEmpty envC7.timeout envC7.now)
                3 0 envC7.now) 3 AnalysisStatus.PROCESSING envC7.now)
              3 0 []).2 ∧
          r.exif = envC7.exif)) ∧
    (∀ (db : DB) (fid pid uid : Nat),
       (assign_face_to_person db fid pid uid false).1 =
         (assign_face_to_person db fid pid uid true).1 ∧
       (assign_face_to_person db fid pid uid false).2.1 =
         (assign_face_to_person db fid pid uid true).2.1)) :=
  ⟨rfl, C7_publish_failure_effects envC7 ⟨dbEmpty, none⟩ msgC7 payloadC7 3 0 "k" []
    rfl rfl rfl rfl (by decide) rfl rfl rfl⟩

/-- C8: an upload event upserts the AnalysisResult of its media id to
PENDING regardless of any prior state (including terminal DONE and
FAILED), and the full handling of such an event ends with that media id
in a terminal state: DONE or FAILED. -/
theorem C8_upload_upsert_and_terminal
    (env : ExtInput) (st : WorkerState) (msg : Message)
    (payload : Payload) (mid owner : Nat) (key : String)
    (hp : msg.payload = some payload) (hid : payload.id = some mid)
    (how : payload.ownerId = some owner) (hk : payload.storedKey = some key)
    (hch : (msg.channel == "photo:deleted" || payload.action == some "deleted") = false) :
    (∀ (db : DB) (now : Nat), statusOf (create_analysis db mid owner now) mid =
        some AnalysisStatus.PENDING) ∧
    (statusOf (processMessage env st msg).db mid = some AnalysisStatus.DONE ∨
     statusOf (processMessage env st msg).db mid = some AnalysisStatus.FAILED) := by
  constructor
  · intro db now
    exact statusOf_eq_of_all (create_analysis_exists db mid owner now)
      (create_analysis_all_pending db mid owner now)
  · have htb := tryBody_upload env (mark_stale_processing st.db env.timeout env.now)
      msg payload mid owner key hp hid how hk hch
    have hex2 : ∃ r ∈ (update_analysis_status (create_analysis
        (mark_stale_processing st.db env.timeout env.now) mid owner env.now) mid
        AnalysisStatus.PROCESSING env.now).analysis_results, r.media_id = mid :=
      updateMedia_exists (fun _ => rfl)
        (create_analysis_exists (mark_stale_processing st.db env.timeout env.now)
          mid owner env.now)
    cases hdl : env.download key with
    | error e =>
      right
      simp only [hdl] at htb
      have hb : bodyStep env st msg =
          (some mid,
           update_analysis_status (create_analysis
             (mark_stale_processing st.db env.timeout env.now) mid owner env.now) mid
             AnalysisStatus.PROCESSING env.now,
           some e) := htb
      have he : (bodyStep env st msg).2.2 = some e := by rw [hb]
      have hmm : (match (bodyStep env st msg).1 with
                  | some x => some x
                  | none => st.lastMediaId) = some mid := by rw [hb]
      rw [processMessage_error_db env st msg e mid he hmm, hb]
      exact statusOf_update_error_of_exists hex2
    | ok u =>
      cases hdet : env.detect with
      | error e =>
        right
        simp only [hdl, hdet] at htb
        have hb : bodyStep env st msg =
            (some mid,
             update_analysis_status (create_analysis
               (mark_stale_processing st.db env.timeout env.now) mid owner env.now) mid
               AnalysisStatus.PROCESSING env.now,
             some e) := htb
        have he : (bodyStep env st msg).2.2 = some e := by rw [hb]
        have hmm : (match (bodyStep env st msg).1 with
                    | some x => some x
                    | none => st.lastMediaId) = some mid := by rw [hb]
        rw [processMessage_error_db env st msg e mid he hmm, hb]
        exact statusOf_update_error_of_exists hex2
      | ok faces =>
        have hexpf : ∃ r ∈ (processFaces env.cfg (update_analysis_status
            (create_analysis (mark_stale_processing st.db env.timeout env.now)
              mid owner env.now) mid AnalysisStatus.PROCESSING env.now)
            mid owner faces).1.analysis_results, r.media_id = mid := by
          rw [processFaces_analysis_eq]
          exact hex2
        cases hpub : env.publishOk with
        | true =>
          left
          simp only [hdl, hdet, hpub, if_true] at htb
          have hb : bodyStep env st msg =
              (some mid,
               update_analysis_complete
                 (processFaces env.cfg (update_analysis_status
                   (create_analysis (mark_stale_processing st.db env.timeout env.now)
                     mid owner env.now) mid AnalysisStatus.PROCESSING env.now)
                   mid owner faces).1
                 mid
                 (processFaces env.cfg (update_analysis_status
                   (create_analysis (mark_stale_processing st.db env.timeout env.now)
                     mid owner env.now) mid AnalysisStatus.PROCESSING env.now)
                   mid owner faces).2
                 env.exif env.now,
               none) := htb
          have he : (bodyStep env st msg).2.2 = none := by rw [hb]
          rw [processMessage_ok_db env st msg he, hb]
          exact statusOf_update_complete_of_exists hexpf
        | false =>
          right
          simp only [hdl, hdet, hpub, Bool.false_eq_true, if_false] at htb
          have hb : bodyStep env st msg =
              (some mid,
               update_analysis_complete
                 (processFaces env.cfg (update_analysis_status
                   (create_analysis (mark_stale_processing st.db env.timeout env.now)
                     mid owner env.now) mid AnalysisStatus.PROCESSING env.now)
                   mid owner faces).1
                 mid
                 (processFaces env.cfg (update_analysis_status
                   (create_analysis (mark_stale_processing st.db env.timeout env.now)
                     mid owner env.now) mid AnalysisStatus.PROCESSING env.now)
                   mid owner faces).2
                 env.exif env.now,
               some "publish error") := htb
          have he : (bodyStep env st msg).2.2 = some "publish error" := by rw [hb]
          have hmm : (match (bodyStep env st msg).1 with
                      | some x => some x
                      | none => st.lastMediaId) = some mid := by rw [hb]
          rw [processMessage_error_db env st msg "publish error" mid he hmm, hb]
          exact statusOf_update_error_of_exists
            (updateMedia_exists (fun _ => rfl) hexpf)

def payloadC8 : Payload := ⟨some 1, some 0, some "k", none⟩

unseal Rat.add Rat.mul Rat.sub Rat.inv in
theorem C8_upload_upsert_and_terminal_witness :
    msgC6a.payload = some payloadC8 ∧
    ((∀ (db : DB) (now : Nat), statusOf (create_analysis db 1 0 now) 1 =
        some AnalysisStatus.PENDING) ∧
     (statusOf (processMessage envC6a ⟨dbEmpty, none⟩ msgC6a).db 1 =
        some AnalysisStatus.DONE ∨
      statusOf (processMessage envC6a ⟨dbEmpty, none⟩ msgC6a).db 1 =
        some AnalysisStatus.FAILED)) :=
  ⟨rfl, C8_upload_upsert_and_terminal envC6a ⟨dbEmpty, none⟩ msgC6a payloadC8 1 0 "k"
    rfl rfl rfl rfl (by decide)⟩

/-! ## Claim C9: the pipeline never auto-confirms -/

theorem save_faces_mem {db : DB} {mid : Nat} {emb : Vec} {a b c d : Int}
    {pid : Option Nat} {fe : FaceEmbeddingRow}
    (h : fe ∈ (save_face_embedding db mid emb a b c d pid).1.face_embeddings) :
    fe ∈ db.face_embeddings ∨ fe.person_id = pid := by
  simp only [save_face_embedding, List.mem_append, List.mem_singleton] at h
  rcases h with h | h
  · exact Or.inl h
  · right
    rw [h]

theorem save_links_eq (db : DB) (mid : Nat) (emb : Vec) (a b c d : Int)
    (pid : Option Nat) :
    (save_face_embedding db mid emb a b c d pid).1.photo_persons =
      db.photo_persons := rfl

theorem link_links_mem {db : DB} {mid pid : Nat} {fid : Option Nat} {conf : Bool}
    {pp : PhotoPersonRow}
    (h : pp ∈ (link_photo_person db mid pid fid conf).photo_persons) :
    pp ∈ db.photo_persons ∨ pp.confirmed = conf := by
  unfold link_photo_person at h
  split at h
  · simp only [List.mem_map] at h
    obtain ⟨a, ha, heq⟩ := h
    split at heq
    · right
      rw [← heq]
    · left
      rw [← heq]
      exact ha
  · simp only [List.mem_append, List.mem_singleton] at h
    rcases h with h | h
    · exact Or.inl h
    · right
      rw [h]

theorem link_faces_eq (db : DB) (mid pid : Nat) (fid : Option Nat) (conf : Bool) :
    (link_photo_person db mid pid fid conf).face_embeddings = db.face_embeddings := by
  unfold link_photo_person
  split <;> rfl

theorem processFaces_faces (cfg : MatchConfig) (mid owner : Nat) (fs : List Face) :
    ∀ db : DB, ∀ fe ∈ (processFaces cfg db mid owner fs).1.face_embeddings,
      fe ∈ db.face_embeddings ∨ fe.person_id = none := by
  induction fs with
  | nil => exact fun db fe h => Or.inl h
  | cons f rest ih =>
    intro db fe h
    simp only [processFaces] at h
    rcases ih _ fe h with h2 | h2
    · cases hsim : find_similar_face cfg db f.embedding owner with
      | none =>
        rw [hsim] at h2
        dsimp only at h2
        exact save_faces_mem h2
      | some pid =>
        rw [hsim] at h2
        dsimp only at h2
        rw [link_faces_eq] at h2
        exact save_faces_mem h2
    · exact Or.inr h2

theorem processFaces_links (cfg : MatchConfig) (mid owner : Nat) (fs : List Face) :
    ∀ db : DB, ∀ pp ∈ (processFaces cfg db mid owner fs).1.photo_persons,
      pp ∈ db.photo_persons ∨ pp.confirmed = false := by
  induction fs with
  | nil => exact fun db pp h => Or.inl h
  | cons f rest ih =>
    intro db pp h
    simp only [processFaces] at h
    rcases ih _ pp h with h2 | h2
    · cases hsim : find_similar_face cfg db f.embedding owner with
      | none =>
        rw [hsim] at h2
        dsimp only at h2
        rw [save_links_eq] at h2
        exact Or.inl h2
      | some pid =>
        rw [hsim] at h2
        dsimp only at h2
        rcases link_links_mem h2 with h3 | h3
        · rw [save_links_eq] at h3
          exact Or.inl h3
        · exact Or.inr h3
    · exact Or.inr h2

theorem create_faces_eq (db : DB) (mid owner n : Nat) :
    (create_analysis db mid owner n).face_embeddings = db.face_embeddings := by
  unfold create_analysis
  split <;> rfl

theorem create_links_eq (db : DB) (mid owner n : Nat) :
    (create_analysis db mid owner n).photo_persons = db.photo_persons := by
  unfold create_analysis
  split <;> rfl

theorem tryBody_faces (env : ExtInput) (db : DB) (msg : Message) :
    ∀ fe ∈ (tryBody env db msg).2.1.face_embeddings,
      fe ∈ db.face_embeddings ∨ fe.person_id = none := by
  unfold tryBody
  cases hpl : msg.payload with
  | none => exact fun fe h => Or.inl h
  | some payload =>
    dsimp only
    cases hid : payload.id with
    | none => exact fun fe h => Or.inl h
    | some mid =>
      dsimp only
      cases how : payload.ownerId with
      | none => exact fun fe h => Or.inl h
      | some owner =>
        dsimp only
        cases hk : payload.storedKey with
        | none => exact fun fe h => Or.inl h
        | some key =>
          dsimp only
          split
          · exact fun fe h => Or.inl (List.mem_of_mem_filter h)
          · have hdb2 : (update_analysis_status (create_analysis db mid owner env.now)
                mid AnalysisStatus.PROCESSING env.now).face_embeddings =
                db.face_embeddings := create_faces_eq db mid owner env.now
            cases hdl : env.download key with
            | error e =>
              intro fe h
              rw [hdb2] at h
              exact Or.inl h
            | ok u =>
              dsimp only
              cases hdet : env.detect with
              | error e =>
                intro fe h
                rw [hdb2] at h
                exact Or.inl h
              | ok faces =>
                dsimp only
                have hmain : ∀ fe ∈ (processFaces env.cfg (update_analysis_status
                    (create_analysis db mid owner env.now) mid
                    AnalysisStatus.PROCESSING env.now) mid owner
                    faces).1.face_embeddings,
                    fe ∈ db.face_embeddings ∨ fe.person_id = none := by
                  intro fe h
                  rcases processFaces_faces env.cfg mid owner faces _ fe h with h2 | h2
                  · rw [hdb2] at h2
                    exact Or.inl h2
                  · exact Or.inr h2
                split
                · exact hmain
                · exact hmain

theorem tryBody_links (env : ExtInput) (db : DB) (msg : Message) :
    ∀ pp ∈ (tryBody env db msg).2.1.photo_persons,
      pp ∈ db.photo_persons ∨ pp.confirmed = false := by
  unfold tryBody
  cases hpl : msg.payload with
  | none => exact fun pp h => Or.inl h
  | some payload =>
    dsimp only
    cases hid : payload.id with
    | none => exact fun pp h => Or.inl h
    | some mid =>
      dsimp only
      cases how : payload.ownerId with
      | none => exact fun pp h => Or.inl h
      | some owner =>
        dsimp only
        cases hk : payload.storedKey with
        | none => exact fun pp h => Or.inl h
        | some key =>
          dsimp only
          split
          · exact fun pp h => Or.inl (List.mem_of_mem_filter h)
          · have hdb2 : (update_analysis_status (create_analysis db mid owner env.now)
                mid AnalysisStatus.PROCESSING env.now).photo_persons =
                db.photo_persons := create_links_eq db mid owner env.now
            cases hdl : env.download key with
            | error e =>
              intro pp h
              rw [hdb2] at h
              exact Or.inl h
            | ok u =>
              dsimp only
              cases hdet : env.detect with
              | error e =>
                intro pp h
                rw [hdb2] at h
                exact Or.inl h
              | ok faces =>
                dsimp only
                have hmain : ∀ pp ∈ (processFaces env.cfg (update_analysis_status
                    (create_analysis db mid owner env.now) mid
                    AnalysisStatus.PROCESSING env.now) mid owner
                    faces).1.photo_persons,
                    pp ∈ db.photo_persons ∨ pp.confirmed = false := by
                  intro pp h
                  rcases processFaces_links env.cfg mid owner faces _ pp h with h2 | h2
                  · rw [hdb2] at h2
                    exact Or.inl h2
                  · exact Or.inr h2
                split
                · exact hmain
                · exact hmain

theorem processMessage_faces_eq (env : ExtInput) (st : WorkerState) (msg : Message) :
    (processMessage env st msg).db.face_embeddings =
      (bodyStep env st msg).2.1.face_embeddings := by
  simp only [processMessage, bodyStep]
  split
  · rfl
  · split
    · rfl
    · rfl

theorem processMessage_links_eq (env : ExtInput) (st : WorkerState) (msg : Message) :
    (processMessage env st msg).db.photo_persons =
      (bodyStep env st msg).2.1.photo_persons := by
  simp only [processMessage, bodyStep]
  split
  · rfl
  · split
    · rfl
    · rfl

/-- C9: handling any message never auto-assigns or auto-confirms: every
face_embeddings row the handler adds has person_id None (even when the
resolver matched), and every photo_persons row it adds or rewrites has
confirmed false; no worker path writes confirmed true. -/
theorem C9_no_auto_confirmation (env : ExtInput) (st : WorkerState) (msg : Message) :
    (∀ fe ∈ (processMessage env st msg).db.face_embeddings,
       fe ∈ st.db.face_embeddings ∨ fe.person_id = none) ∧
    (∀ pp ∈ (processMessage env st msg).db.photo_persons,
       pp ∈ st.db.photo_persons ∨ pp.confirmed = false) := by
  constructor
  · intro fe h
    rw [processMessage_faces_eq] at h
    exact tryBody_faces env (mark_stale_processing st.db env.timeout env.now) msg fe h
  · intro pp h
    rw [processMessage_links_eq] at h
    exact tryBody_links env (mark_stale_processing st.db env.timeout env.now) msg pp h

def dbC9 : DB where
  persons := []
  face_embeddings := []
  photo_persons := [⟨50, 4, some 60, true⟩]
  analysis_results := []
  ignored_faces := []
  nextId := 0

def envC9 : ExtInput where
  now := 30
  timeout := 100
  cfg := cfgW
  download := fun _ => Except.ok ()
  exif := ExifData.empty
  detect := Except.ok [⟨0, 0, 10, 10, [0]⟩]
  publishOk := true

def msgC9 : Message := ⟨"photo:uploaded", some ⟨some 9, some 0, some "k", none⟩⟩

/-- The face row saved while handling msgC9: fresh id 0, person_id None. -/
def feC9 : FaceEmbeddingRow := ⟨0, 9, none, [0], 0, 0, 10, 10⟩

def ppC9 : PhotoPersonRow := ⟨50, 4, some 60, true⟩

unseal Rat.add Rat.mul Rat.sub Rat.inv in
theorem C9_no_auto_confirmation_witness :
    feC9 ∈ (processMessage envC9 ⟨dbC9, none⟩ msgC9).db.face_embeddings ∧
    ppC9 ∈ (processMessage envC9 ⟨dbC9, none⟩ msgC9).db.photo_persons ∧
    (feC9 ∈ dbC9.face_embeddings ∨ feC9.person_id = none) ∧
    (ppC9 ∈ dbC9.photo_persons ∨ ppC9.confirmed = false) :=
  ⟨by decide, by decide,
    (C9_no_auto_confirmation envC9 ⟨dbC9, none⟩ msgC9).1 feC9 (by decide),
    (C9_no_auto_confirmation envC9 ⟨dbC9, none⟩ msgC9).2 ppC9 (by decide)⟩

/-! ## Claim C10: owner scoping of the person-api endpoints -/

theorem list_map_id_of {α : Type} {l : List α} {f : α → α}
    (h : ∀ x ∈ l, f x = x) : l.map f = l := by
  induction l with
  | nil => rfl
  | cons a t ih =>
    simp only [List.map_cons]
    rw [h a (by simp), ih fun x hx => h x (by simp [hx])]

/-- C10: each owner-scoped read/update/delete endpoint (get_person,
update_person, delete_person, get_analysis_status) responds 404 with the
same detail as for a missing record whenever no row with the requested id
belongs to the caller - in particular when the record exists under another
owner - and the database is left unchanged. -/
theorem C10_owner_scoped_endpoints
    (db : DB) (pid mid uid : Nat) (u : PersonUpdate)
    (hp : ∀ p ∈ db.persons, p.id = pid → p.owner_id ≠ uid)
    (ha : ∀ r ∈ db.analysis_results, r.media_id = mid → r.owner_id ≠ uid) :
    get_person db pid uid = Except.error ⟨404, "Person not found"⟩ ∧
    update_person db pid u uid = (db, Except.error ⟨404, "Person not found"⟩) ∧
    delete_person db pid uid = (db, Except.error ⟨404, "Person not found"⟩) ∧
    get_analysis_status db mid uid = Except.error ⟨404, "Analysis not found"⟩ := by
  have hcond : ∀ p ∈ db.persons, (p.id == pid && p.owner_id == uid) = false := by
    intro p hmem
    rw [Bool.and_eq_false_iff]
    by_cases hid : p.id = pid
    · right
      simpa using hp p hmem hid
    · left
      simpa using hid
  have hfind : (db.persons.find? fun p => p.id == pid && p.owner_id == uid) = none := by
    rw [List.find?_eq_none]
    intro p hmem
    rw [hcond p hmem]
    simp
  have hacond : ∀ r ∈ db.analysis_results,
      (r.media_id == mid && r.owner_id == uid) = false := by
    intro r hmem
    rw [Bool.and_eq_false_iff]
    by_cases hm : r.media_id = mid
    · right
      simpa using ha r hmem hm
    · left
      simpa using hm
  have hafind : (db.analysis_results.find? fun r =>
      r.media_id == mid && r.owner_id == uid) = none := by
    rw [List.find?_eq_none]
    intro r hmem
    rw [hacond r hmem]
    simp
  have hmap : (db.persons.map fun p =>
      if p.id == pid && p.owner_id == uid then applyPersonUpdate u p else p) =
      db.persons :=
    list_map_id_of fun p hmem => by rw [hcond p hmem]; simp
  have hfilter_nil : (db.persons.filter fun p => p.id == pid && p.owner_id == uid) =
      [] := by
    rw [List.filter_eq_nil_iff]
    intro p hmem
    rw [hcond p hmem]
    simp
  have hfilter_self : (db.persons.filter fun p =>
      !(p.id == pid && p.owner_id == uid)) = db.persons := by
    rw [List.filter_eq_self]
    intro p hmem
    rw [hcond p hmem]
    rfl
  refine ⟨?_, ?_, ?_, ?_⟩
  · simp [get_person, hfind]
  · simp only [update_person, hfind, hmap]
  · simp only [delete_person, hfilter_nil, hfilter_self]
    rfl
  · simp [get_analysis_status, hafind]

def dbC10 : DB where
  persons := [⟨1, 5, "X", none, none⟩]
  face_embeddings := []
  photo_persons := []
  analysis_results := [⟨7, 5, AnalysisStatus.DONE, some 0, ExifData.empty, none, 0⟩]
  ignored_faces := []
  nextId := 2

def updC10 : PersonUpdate := ⟨some "renamed", none, none⟩

theorem C10_owner_scoped_endpoints_witness :
    (∃ p ∈ dbC10.persons, p.id = 1 ∧ p.owner_id ≠ 0) ∧
    (∃ r ∈ dbC10.analysis_results, r.media_id = 7 ∧ r.owner_id ≠ 0) ∧
    (get_person dbC10 1 0 = Except.error ⟨404, "Person not found"⟩ ∧
     update_person dbC10 1 updC10 0 = (dbC10, Except.error ⟨404, "Person not found"⟩) ∧
     delete_person dbC10 1 0 = (dbC10, Except.error ⟨404, "Person not found"⟩) ∧
     get_analysis_status dbC10 7 0 = Except.error ⟨404, "Analysis not found"⟩) :=
  ⟨by decide, by decide,
    C10_owner_scoped_endpoints dbC10 1 7 0 updC10 (by decide) (by decide)⟩

end PhotoPipeline
